import Mathlib

/-!
Verification of the batched-upload pipeline of the anki-tools repository
(`scripts/upload-csv-to-new-deck.py` and `scripts/upload-classical-authors.py`)
against its natural-language specification.

The Python code is shallowly embedded: pandas scalars become `Option String`
(with `none` for a missing/NaN cell and `some s` for a scalar whose `str`
form is `s`), Python dicts become insertion-ordered association lists with
last-write-wins updates, the generator `chunk` becomes a total recursive
function on lists, and each script's `main` becomes a pure function from a
configuration, the parsed CSV rows and a mock transport to the trace of
network calls issued, the structured log of what was printed, and how the
process terminated.
-/

namespace AnkiTools

/-- Value of one CSV cell as pandas hands it to the scripts: `none` models a
missing value (pandas `NaN`), `some s` models a scalar whose Python `str`
form is `s`. -/
abbrev RawValue := Option String

/-- One parsed CSV row (`pd_row`): an ordered association of column name to
cell value. -/
abbrev RawRecord := List (String × RawValue)

/-- Lookup of `pd_row.loc[column]`.  The scripts only evaluate it at
configured columns, and `pd.read_csv` materialises every column of the
file in every row (a blank cell is a present NaN, not an absent label),
so in the program the label is always present; the absent-label arm below
is a total-function default outside that domain (real pandas would raise
KeyError there) and no concrete theorem input exercises it — rows in the
fixtures carry every configured column. -/
def loc (row : RawRecord) (column : String) : RawValue :=
  match row.lookup column with
  | some v => v
  | none => none

/-- Python `str(raw_value)` for a cell: a missing value (pandas `NaN`)
renders as the string `nan`; a scalar renders as its `str` form. -/
def pyStr : RawValue → String
  | none => "nan"
  | some s => s

/-- Embedding of `pd.notnull(raw_value)`. -/
def pd_notnull : RawValue → Bool
  | none => false
  | some _ => true

/-- Python `str.strip()`: remove leading and trailing whitespace.  Written
directly on the string's character list so that it evaluates inside the
kernel. -/
def pyStrip (s : String) : String :=
  ⟨((s.data.dropWhile Char.isWhitespace).reverse.dropWhile Char.isWhitespace).reverse⟩

/-- Python dict assignment `d[k] = v`: replaces the value in place when the
key is present (keeping the key's original position), otherwise appends. -/
def dictInsert (d : List (String × String)) (k v : String) : List (String × String) :=
  if d.any (fun p => p.1 == k) then
    d.map (fun p => if p.1 == k then (k, v) else p)
  else
    d ++ [(k, v)]

/-- Python `k in d` for a dict. -/
def dictContains (d : List (String × String)) (k : String) : Bool :=
  d.any (fun p => p.1 == k)

/-- Python `d[k]` for a dict; the scripts only evaluate it on keys known to
be present, so the default for an absent key is never reached. -/
def dictGet (d : List (String × String)) (k : String) : String :=
  match d.lookup k with
  | some v => v
  | none => ""

/-- Embedding of the generator

    def chunk(iterable, n=100):
        it = iter(iterable)
        batch = tuple(itertools.islice(it, n))
        while batch:
            yield batch
            batch = tuple(itertools.islice(it, n))

(identical in the two scripts).  `islice(it, n)` takes the next `n`
elements, so a batch is empty exactly when the remaining input is empty or
`n = 0`; the generator stops at the first empty batch.  Each loop
iteration that yields consumes at least one input element, so the number
of iterations is bounded by the input length; `chunkLoop` takes that bound
as explicit fuel so the recursion is structural and the function evaluates
inside the kernel, and `chunk` supplies the exact bound. -/
def chunkLoop (n : Nat) : Nat → List α → List (List α)
  | _, [] => []
  | 0, _ :: _ => []
  | fuel + 1, x :: xs =>
    match n with
    | 0 => []
    | m + 1 => (x :: xs.take m) :: chunkLoop n fuel (xs.drop m)

/-- Generator `chunk(iterable, n)`: see `chunkLoop` for the loop body. -/
def chunk (l : List α) (n : Nat) : List (List α) := chunkLoop n l.length l

/-- Embedding of `pd_row_to_note_fields` (upload-csv-to-new-deck.py):

    def pd_row_to_note_fields(pd_row, columns_to_note_fields):
        note = dict()
        for (column, field) in columns_to_note_fields.items():
            raw_value = pd_row.loc[column]
            if pd.notnull(raw_value) and str(raw_value).strip():
                note[field] = str(raw_value).strip()
        return note

The mapping table is the dict's (column, field) pairs in insertion order. -/
def pd_row_to_note_fields (pd_row : RawRecord)
    (columns_to_note_fields : List (String × String)) : List (String × String) :=
  columns_to_note_fields.foldl
    (fun note cf =>
      let raw_value := loc pd_row cf.1
      if pd_notnull raw_value = true ∧ pyStrip (pyStr raw_value) ≠ "" then
        dictInsert note cf.2 (pyStrip (pyStr raw_value))
      else
        note)
    []

/-- Embedding of `csv_column_to_field` (upload-classical-authors.py):
`str(pd_row.loc[column]).strip()` — no null check and no blank elision. -/
def csv_column_to_field (pd_row : RawRecord) (column : String) : String :=
  pyStrip (pyStr (loc pd_row column))

/-- Embedding of the dict comprehension at upload-classical-authors.py
lines 81-84 building one row's fields:
`\x7bfield: csv_column_to_field(row, column) for (column, field) in columns_to_fields_map.items()\x7d`. -/
def classical_row_to_fields (pd_row : RawRecord)
    (columns_to_fields_map : List (String × String)) : List (String × String) :=
  columns_to_fields_map.foldl
    (fun note cf => dictInsert note cf.2 (csv_column_to_field pd_row cf.1))
    []

/-- Note payload as both scripts build it for the `notes` parameter of
`canAddNotes` and `addNotes`. -/
structure Note where
  deckName : String
  modelName : String
  fields : List (String × String)
  allowDuplicate : Bool
  tags : List String
deriving DecidableEq

/-- Building one note dict from a fields dict and the configuration. -/
def mkNote (deck model : String) (allowDup : Bool)
    (fields : List (String × String)) : Note :=
  ⟨deck, model, fields, allowDup, []⟩

/-- One network round trip issued through `post_anki`, identified by its
`action` and, for the batched actions, the batch sent. -/
inductive NetCall where
  | version
  | deckNames
  | modelNames
  | canAddNotes (notes : List Note)
  | addNotes (notes : List Note)
deriving DecidableEq

/-- Structured rendering of the print statements of the scripts: each constructor
is one print site, carrying the data interpolated there. -/
inductive LogEvent where
  | info (msg : String)
  | duplicateIndex (value : String)
  | failedNoteFields (fields : List (String × String))
  | preflightSummary (valid total : Nat)
  | confirmed (count : Nat)
  | addError (err : String)
  | commitFailure (failures total : Nat)
  | failedNote (note : Note)
  | progress (successes failures : Nat)
  | added (count : Nat)
deriving DecidableEq

/-- How a run of `main` ends: falling off the end (exit status 0),
`sys.exit(1)`, a failed `assert`, or an uncaught `NameError` from
evaluating an unbound name (each of the last three gives a non-zero
process exit status). -/
inductive Exit where
  | ok
  | exit1
  | assertFail (msg : String)
  | nameError (name : String)
deriving DecidableEq

/-- Everything observable about one run: the network calls issued in order,
the structured log, and the termination mode. -/
structure RunResult where
  trace : List NetCall
  log : List LogEvent
  exit : Exit
deriving DecidableEq

/-- Mock transport: the response `(error, result)` the service returns for
each action.  The batched actions may depend on the batch sent, which is
all a sequential deterministic run can observe. -/
structure Transport where
  version : Option String × Int
  deckNames : Option String × List String
  modelNames : Option String × List String
  canAddNotes : List Note → Option String × List Bool
  addNotes : List Note → Option String × List (Option String)

/-- Parsed configuration of upload-csv-to-new-deck.py (`ScriptConfig`). -/
structure ScriptConfig where
  csv_path : String
  deck_name : String
  note_type : String
  columns_to_note_fields : List (String × String)
  allow_duplicates : Bool
  index_field : String
deriving DecidableEq

/-- Raw JSON configuration dict of upload-csv-to-new-deck.py, with `none`
for a key absent from the file. -/
structure ConfigDict where
  csv_path : Option String
  deck_name : Option String
  note_type : Option String
  columns_to_note_fields : Option (List (String × String))
  allow_duplicates : Option Bool
  index_field : Option String

/-- Embedding of `parse_config` (upload-csv-to-new-deck.py): asserts the six
required keys in tuple order and builds the `ScriptConfig`.  It runs as the
argparse `type` converter, before the body of `main` issues any network
call. -/
def parse_config (d : ConfigDict) : Except String ScriptConfig :=
  match d.csv_path, d.deck_name, d.note_type, d.columns_to_note_fields,
      d.allow_duplicates, d.index_field with
  | none, _, _, _, _, _ => .error "key=csv_path is not in dictionary"
  | some _, none, _, _, _, _ => .error "key=deck_name is not in dictionary"
  | some _, some _, none, _, _, _ => .error "key=note_type is not in dictionary"
  | some _, some _, some _, none, _, _ =>
      .error "key=columns_to_note_fields is not in dictionary"
  | some _, some _, some _, some _, none, _ =>
      .error "key=allow_duplicates is not in dictionary"
  | some _, some _, some _, some _, some _, none =>
      .error "key=index_field is not in dictionary"
  | some p, some dn, some nt, some m, some ad, some idx => .ok ⟨p, dn, nt, m, ad, idx⟩

/-- Setup phase of upload-csv-to-new-deck.py `main`: liveness check, deck
existence check, note-type existence check, each an HTTP call followed by
asserts.  Returns the early-exit `RunResult` on a failed assert, or the
trace and log accumulated so far. -/
def csvSetupChecks (config : ScriptConfig) (t : Transport) :
    Except RunResult (List NetCall × List LogEvent) :=
  if (t.version).1 ≠ none then
    .error ⟨[.version], [], .assertFail "version error is not None"⟩
  else if (t.version).2 ≠ 6 then
    .error ⟨[.version], [], .assertFail "version result is not 6"⟩
  else if (t.deckNames).1 ≠ none then
    .error ⟨[.version, .deckNames], [.info "ANKI api is up"],
            .assertFail "deckNames error is not None"⟩
  else if ¬ (t.deckNames).2.contains config.deck_name then
    .error ⟨[.version, .deckNames], [.info "ANKI api is up"],
            .assertFail "deck_name not in deckNames result"⟩
  else if (t.modelNames).1 ≠ none then
    .error ⟨[.version, .deckNames, .modelNames],
            [.info "ANKI api is up", .info "Deck exists"],
            .assertFail "modelNames error is not None"⟩
  else if ¬ (t.modelNames).2.contains config.note_type then
    .error ⟨[.version, .deckNames, .modelNames],
            [.info "ANKI api is up", .info "Deck exists"],
            .assertFail "note_type not in modelNames result"⟩
  else
    .ok ([.version, .deckNames, .modelNames],
         [.info "ANKI api is up", .info "Deck exists", .info "Note Type exists"])

/-- Rows mapped to note fields and then filtered by
`lambda f: config.index_field in f` (upload-csv-to-new-deck.py lines
105-113).  The filter is applied unconditionally — its application does not
depend on `allow_duplicates`, as the argument list shows. -/
def csvFieldsToUpload (rows : List RawRecord)
    (columns_to_note_fields : List (String × String)) (index_field : String) :
    List (List (String × String)) :=
  (rows.map (fun r => pd_row_to_note_fields r columns_to_note_fields)).filter
    (fun f => dictContains f index_field)

/-- Embedding of the duplicate-scan loop (upload-csv-to-new-deck.py lines
118-123), applied to the sequence of index-field values: returns the first
value already in the seen set, or `none` when the loop completes. -/
def firstDup : List String → List String → Option String
  | [], _ => none
  | v :: vs, seen => if seen.contains v then some v else firstDup vs (v :: seen)

/-- Pre-flight loop of upload-csv-to-new-deck.py (lines 141-156): one
`canAddNotes` call per batch; a non-null error fails an assert; any `false`
entry prints the fields of the failing notes and the validity summary and then
calls `sys.exit(1)`.  Returns the calls issued, the log, and the abnormal
exit if any. -/
def csvPreflight (t : Transport) :
    List (List Note) → List NetCall × List LogEvent × Option Exit
  | [] => ([], [], none)
  | b :: rest =>
    let resp := t.canAddNotes b
    if resp.1 ≠ none then
      ([.canAddNotes b], [], some (.assertFail "canAddNotes error is not None"))
    else if resp.2.all (fun r => r) then
      let next := csvPreflight t rest
      (.canAddNotes b :: next.1, .confirmed b.length :: next.2.1, next.2.2)
    else
      ([.canAddNotes b],
       ((b.zip resp.2).filter (fun p => p.2 = false)).map
           (fun p => .failedNoteFields p.1.fields)
         ++ [.preflightSummary (resp.2.count true) resp.2.length],
       some .exit1)

/-- Commit loop of upload-csv-to-new-deck.py (lines 159-180) with the
running totals.  When a batch has at least one per-note failure, line 174
interpolates `num_failures` — a name never bound in this function — so the
f-string evaluation raises `NameError` and the run dies there; the
per-note prints and the accumulation below that line are unreachable. -/
def csvCommit (t : Transport) :
    Nat → Nat → List (List Note) → List NetCall × List LogEvent × Option Exit
  | _, _, [] => ([], [], none)
  | succ, fl, b :: rest =>
    let resp := t.addNotes b
    let errLog : List LogEvent :=
      match resp.1 with
      | some e => [.addError e]
      | none => []
    let outcomes := resp.2.map (fun r => decide (r ≠ none))
    let s := outcomes.count true
    let f := outcomes.length - s
    if f > 0 then
      ([.addNotes b], errLog, some (.nameError "num_failures"))
    else
      let next := csvCommit t (succ + s) (fl + f) rest
      (.addNotes b :: next.1, errLog ++ [.progress (succ + s) (fl + f)] ++ next.2.1,
       next.2.2)

/-- Embedding of `main` of upload-csv-to-new-deck.py, from the point where
the configuration has already been parsed (argparse does that first): setup
checks, field mapping plus index filter, duplicate scan, pre-flight loop,
commit loop.  `rows` are the parsed CSV rows in file order. -/
def csvMain (config : ScriptConfig) (rows : List RawRecord) (t : Transport) :
    RunResult :=
  match csvSetupChecks config t with
  | .error r => r
  | .ok (tr0, lg0) =>
    let fields_to_upload :=
      csvFieldsToUpload rows config.columns_to_note_fields config.index_field
    let dup : Option String :=
      if config.allow_duplicates then none
      else firstDup (fields_to_upload.map (fun f => dictGet f config.index_field)) []
    match dup with
    | some v => ⟨tr0, lg0 ++ [.duplicateIndex v], .exit1⟩
    | none =>
      let notes_to_upload := fields_to_upload.map
        (mkNote config.deck_name config.note_type config.allow_duplicates)
      let batches := chunk notes_to_upload 100
      let pre := csvPreflight t batches
      match pre.2.2 with
      | some e => ⟨tr0 ++ pre.1, lg0 ++ pre.2.1, e⟩
      | none =>
        let com := csvCommit t 0 0 batches
        ⟨tr0 ++ pre.1 ++ com.1, lg0 ++ pre.2.1 ++ com.2.1,
         match com.2.2 with
         | some e => e
         | none => .ok⟩

/-- Whole upload-csv-to-new-deck.py run including configuration parsing,
which argparse performs before the body of `main` runs: on a missing key
the assert in `parse_config` fails with no network call issued. -/
def csvRun (d : ConfigDict) (rows : List RawRecord) (t : Transport) : RunResult :=
  match parse_config d with
  | .error k => ⟨[], [], .assertFail k⟩
  | .ok config => csvMain config rows t

/-- Raw JSON configuration of upload-classical-authors.py; `none` models a
key absent from the file.  This script has no `parse_config`: each key is
asserted at its point of use inside `main`. -/
structure ClassicalConfig where
  deck_name : Option String
  note_type : Option String
  csv_columns_to_note_fields : Option (List (String × String))

/-- Setup phase of upload-classical-authors.py `main` in program order:
liveness check (a network call), THEN config load with `deck_name` and
`note_type` asserts, then deck and note-type existence checks, then the
`csv_columns_to_note_fields` assert. -/
def classicalSetup (config : ClassicalConfig) (t : Transport) :
    Except RunResult (String × String × List (String × String)) :=
  if (t.version).1 ≠ none then
    .error ⟨[.version], [], .assertFail "version error is not None"⟩
  else if (t.version).2 ≠ 6 then
    .error ⟨[.version], [], .assertFail "version result is not 6"⟩
  else
    match config.deck_name, config.note_type with
    | none, _ =>
        .error ⟨[.version], [.info "ANKI api is up"],
                .assertFail "key=deck_name is not in dictionary"⟩
    | some _, none =>
        .error ⟨[.version], [.info "ANKI api is up"],
                .assertFail "key=note_type is not in dictionary"⟩
    | some deck_name, some note_type =>
      if (t.deckNames).1 ≠ none then
        .error ⟨[.version, .deckNames], [.info "ANKI api is up"],
                .assertFail "deckNames error is not None"⟩
      else if ¬ (t.deckNames).2.contains deck_name then
        .error ⟨[.version, .deckNames], [.info "ANKI api is up"],
                .assertFail "deck_name not in deckNames result"⟩
      else if (t.modelNames).1 ≠ none then
        .error ⟨[.version, .deckNames, .modelNames],
                [.info "ANKI api is up", .info "Deck exists"],
                .assertFail "modelNames error is not None"⟩
      else if ¬ (t.modelNames).2.contains note_type then
        .error ⟨[.version, .deckNames, .modelNames],
                [.info "ANKI api is up", .info "Deck exists"],
                .assertFail "note_type not in modelNames result"⟩
      else
        match config.csv_columns_to_note_fields with
        | none =>
            .error ⟨[.version, .deckNames, .modelNames],
                    [.info "ANKI api is up", .info "Deck exists", .info "Note Type exists"],
                    .assertFail "key=csv_columns_to_note_fields is not in dictionary"⟩
        | some m => .ok (deck_name, note_type, m)

/-- Pre-flight loop of upload-classical-authors.py (lines 100-110): a
non-null error or any `false` entry fails an assert; no per-note logging
in this variant. -/
def classicalPreflight (t : Transport) :
    List (List Note) → List NetCall × List LogEvent × Option Exit
  | [] => ([], [], none)
  | b :: rest =>
    let resp := t.canAddNotes b
    if resp.1 ≠ none then
      ([.canAddNotes b], [], some (.assertFail "canAddNotes error is not None"))
    else if resp.2.all (fun r => r) then
      let next := classicalPreflight t rest
      (.canAddNotes b :: next.1, .confirmed b.length :: next.2.1, next.2.2)
    else
      ([.canAddNotes b], [], some (.assertFail "notes are valid"))

/-- Python truthiness test `not result` on an `addNotes` result entry. -/
def pyFalsy : Option String → Bool
  | none => true
  | some s => s == ""

/-- Commit loop of upload-classical-authors.py (lines 113-130).  Note the
reporting slip kept as the source has it: failing notes are drawn from
`zip(notes_to_upload, add_notes_resp.result)` — the run-level note list,
not the current batch — so for any batch after the first, the notes
printed are not the ones that failed.  The loop never aborts. -/
def classicalCommit (t : Transport) (notes_to_upload : List Note) :
    List (List Note) → List NetCall × List LogEvent
  | [] => ([], [])
  | b :: rest =>
    let resp := t.addNotes b
    let errLog : List LogEvent :=
      match resp.1 with
      | some e => [.addError e]
      | none => []
    let num_failures := resp.2.count none
    let lg : List LogEvent :=
      if num_failures > 0 then
        .commitFailure num_failures resp.2.length ::
          ((notes_to_upload.zip resp.2).filter (fun p => pyFalsy p.2)).map
            (fun p => .failedNote p.1)
      else
        [.added b.length]
    let next := classicalCommit t notes_to_upload rest
    (.addNotes b :: next.1, errLog ++ lg ++ next.2)

/-- Embedding of `main` of upload-classical-authors.py: liveness check,
config load, existence checks, field mapping (no filtering, no duplicate
scan, `allowDuplicate` hard-coded `False`), pre-flight loop, commit loop;
falling off the end is exit status 0. -/
def classicalMain (config : ClassicalConfig) (rows : List RawRecord)
    (t : Transport) : RunResult :=
  match classicalSetup config t with
  | .error r => r
  | .ok (deck_name, note_type, columns_to_fields_map) =>
    let fields_to_upload :=
      rows.map (fun r => classical_row_to_fields r columns_to_fields_map)
    let notes_to_upload := fields_to_upload.map (mkNote deck_name note_type false)
    let batches := chunk notes_to_upload 100
    let pre := classicalPreflight t batches
    let lg0 : List LogEvent :=
      [.info "ANKI api is up", .info "Deck exists", .info "Note Type exists"]
    match pre.2.2 with
    | some e => ⟨[.version, .deckNames, .modelNames] ++ pre.1, lg0 ++ pre.2.1, e⟩
    | none =>
      let com := classicalCommit t notes_to_upload batches
      ⟨[.version, .deckNames, .modelNames] ++ pre.1 ++ com.1,
       lg0 ++ pre.2.1 ++ com.2, .ok⟩

/-! Concrete fixtures used to instantiate the theorems: mock transports and
small configurations/rows. -/

/-- Mock transport whose every response is successful. -/
def tHappy : Transport :=
  ⟨(none, 6), (none, ["D"]), (none, ["M"]),
   fun b => (none, b.map (fun _ => true)),
   fun b => (none, b.map (fun _ => some "id1"))⟩

/-- Mock transport that rejects every note at pre-flight. -/
def tReject : Transport :=
  ⟨(none, 6), (none, ["D"]), (none, ["M"]),
   fun b => (none, b.map (fun _ => false)),
   fun b => (none, b.map (fun _ => some "id1"))⟩

/-- Mock transport whose `addNotes` result is `["id1", null, "id3"]`. -/
def tMixedIds : Transport :=
  ⟨(none, 6), (none, ["D"]), (none, ["M"]),
   fun b => (none, b.map (fun _ => true)),
   fun _ => (none, [some "id1", none, some "id3"])⟩

/-- Mock transport that fails every note at commit. -/
def tAllFail : Transport :=
  ⟨(none, 6), (none, ["D"]), (none, ["M"]),
   fun b => (none, b.map (fun _ => true)),
   fun b => (none, b.map (fun _ => none))⟩

/-- Mock transport whose liveness check reports protocol version 5. -/
def tWrongVersion : Transport :=
  ⟨(none, 5), (none, ["D"]), (none, ["M"]),
   fun b => (none, b.map (fun _ => true)),
   fun b => (none, b.map (fun _ => some "id1"))⟩

/-- Configuration for the csv flow: deck `D`, note type `M`, column `a` to
field `F`, duplicates forbidden, index field `F`. -/
def cfgA : ScriptConfig := ⟨"p.csv", "D", "M", [("a", "F")], false, "F"⟩

/-- Same as `cfgA` but with `allow_duplicates = true`. -/
def cfgDup : ScriptConfig := ⟨"p.csv", "D", "M", [("a", "F")], true, "F"⟩

/-- Configuration for the classical flow matching `cfgA`. -/
def ccfgA : ClassicalConfig := ⟨some "D", some "M", some [("a", "F")]⟩

/-- One CSV row whose column `a` holds the scalar `" x "`. -/
def rowX : RawRecord := [("a", some " x ")]

/-- The note `rowX` maps to under `cfgA`. -/
def noteX : Note := ⟨"D", "M", [("F", "x")], false, []⟩

/-- Rows with three distinct index values. -/
def rowS1 : RawRecord := [("a", some "x1")]

def rowS2 : RawRecord := [("a", some "x2")]

def rowS3 : RawRecord := [("a", some "x3")]

def noteS1 : Note := ⟨"D", "M", [("F", "x1")], false, []⟩

def noteS2 : Note := ⟨"D", "M", [("F", "x2")], false, []⟩

def noteS3 : Note := ⟨"D", "M", [("F", "x3")], false, []⟩

/-- The note `rowX` maps to under `cfgDup` (allowDuplicate true). -/
def noteXd : Note := ⟨"D", "M", [("F", "x")], true, []⟩

theorem chunkLoop_fuel_irrel (n : Nat) :
    ∀ (fuel fuel' : Nat) (l : List α), l.length ≤ fuel → l.length ≤ fuel' →
      chunkLoop n fuel l = chunkLoop n fuel' l := by
  intro fuel
  induction fuel with
  | zero =>
    intro fuel' l h _
    have hl : l = [] := List.eq_nil_of_length_eq_zero (Nat.le_zero.mp h)
    subst hl
    cases fuel' <;> rfl
  | succ fuel ih =>
    intro fuel' l h h'
    cases l with
    | nil => cases fuel' <;> rfl
    | cons x xs =>
      cases fuel' with
      | zero => simp at h'
      | succ fuel' =>
        cases n with
        | zero => rfl
        | succ m =>
          simp only [chunkLoop]
          congr 1
          apply ih
          · simp only [List.length_drop]
            simp only [List.length_cons, Nat.succ_le_succ_iff] at h
            omega
          · simp only [List.length_drop]
            simp only [List.length_cons, Nat.succ_le_succ_iff] at h'
            omega

theorem chunk_nil (n : Nat) : chunk ([] : List α) n = [] := rfl

theorem chunk_cons (x : α) (xs : List α) (n : Nat) :
    chunk (x :: xs) (n + 1) = (x :: xs.take n) :: chunk (xs.drop n) (n + 1) := by
  show chunkLoop (n + 1) (xs.length + 1) (x :: xs) = _
  simp only [chunkLoop]
  congr 1
  exact chunkLoop_fuel_irrel (n + 1) xs.length (xs.drop n).length (xs.drop n)
    (by simp) (le_refl _)

theorem chunk_eq_nil_iff (l : List α) (n : Nat) :
    chunk l (n + 1) = [] ↔ l = [] := by
  cases l with
  | nil => simp [chunk_nil]
  | cons x xs => rw [chunk_cons]; simp

theorem chunk_join (n : Nat) (l : List α) : (chunk l (n + 1)).flatten = l := by
  have H : ∀ k, ∀ l : List α, l.length = k → (chunk l (n + 1)).flatten = l := by
    intro k
    induction k using Nat.strong_induction_on with
    | _ k ih =>
      intro l hk
      cases l with
      | nil => simp [chunk_nil]
      | cons x xs =>
        rw [chunk_cons, List.flatten_cons]
        have hlt : (xs.drop n).length < k := by
          subst hk; simp only [List.length_drop, List.length_cons]; omega
        rw [ih _ hlt _ rfl]
        simp [List.take_append_drop]
  exact H l.length l rfl

theorem chunk_batch_sizes (n : Nat) (l : List α) :
    ∀ b ∈ chunk l (n + 1), b ≠ [] ∧ b.length ≤ n + 1 := by
  have H : ∀ k, ∀ l : List α, l.length = k →
      ∀ b ∈ chunk l (n + 1), b ≠ [] ∧ b.length ≤ n + 1 := by
    intro k
    induction k using Nat.strong_induction_on with
    | _ k ih =>
      intro l hk
      cases l with
      | nil => simp [chunk_nil]
      | cons x xs =>
        rw [chunk_cons]
        intro b hb
        rcases List.mem_cons.mp hb with hb | hb
        · subst hb
          refine ⟨by simp, ?_⟩
          simp only [List.length_cons, List.length_take]
          omega
        · have hlt : (xs.drop n).length < k := by
            subst hk; simp only [List.length_drop, List.length_cons]; omega
          exact ih _ hlt _ rfl b hb
  exact H l.length l rfl

theorem chunk_full_init (n : Nat) (l : List α) :
    ∀ b ∈ (chunk l (n + 1)).dropLast, b.length = n + 1 := by
  have H : ∀ k, ∀ l : List α, l.length = k →
      ∀ b ∈ (chunk l (n + 1)).dropLast, b.length = n + 1 := by
    intro k
    induction k using Nat.strong_induction_on with
    | _ k ih =>
      intro l hk
      cases l with
      | nil => simp [chunk_nil]
      | cons x xs =>
        rw [chunk_cons]
        intro b hb
        cases hrest : chunk (xs.drop n) (n + 1) with
        | nil => rw [hrest] at hb; simp at hb
        | cons c cs =>
          rw [hrest] at hb
          rw [List.dropLast_cons_of_ne_nil (by simp)] at hb
          rcases List.mem_cons.mp hb with hb | hb
          · subst hb
            have hne : xs.drop n ≠ [] := by
              intro hnil
              rw [hnil, chunk_nil] at hrest
              exact List.noConfusion hrest
            have hlen : n ≤ xs.length := by
              by_contra hgt
              push_neg at hgt
              exact hne (List.drop_eq_nil_of_le (Nat.le_of_lt hgt))
            simp only [List.length_cons, List.length_take]
            omega
          · have hlt : (xs.drop n).length < k := by
              subst hk; simp only [List.length_drop, List.length_cons]; omega
            have hmem := ih _ hlt _ rfl b
            rw [hrest] at hmem
            exact hmem hb
  exact H l.length l rfl

/-! Claim theorems and their supporting lemmas. -/

/-- C1: for every finite note sequence and every batch size n ≥ 1, the
batches emitted by `chunk` concatenate in emission order back to the input
exactly, every batch except possibly the last has exactly n elements (the
last is nonempty with at most n), and the output is a finite list — the
generator terminates. -/
theorem chunk_lossless_partition {α : Type} (notes : List α) (n : Nat) (hn : 1 ≤ n) :
    (chunk notes n).flatten = notes ∧
    (∀ b ∈ (chunk notes n).dropLast, b.length = n) ∧
    (∀ b ∈ chunk notes n, b ≠ [] ∧ b.length ≤ n) := by
  obtain ⟨m, rfl⟩ : ∃ m, n = m + 1 := ⟨n - 1, by omega⟩
  exact ⟨chunk_join m notes, chunk_full_init m notes, chunk_batch_sizes m notes⟩

/-- Witness for `chunk_lossless_partition` at notes = [10,20,30,40,50], n = 2. -/
theorem chunk_lossless_partition_witness :
    (chunk [10, 20, 30, 40, 50] 2).flatten = [10, 20, 30, 40, 50] ∧
    (∀ b ∈ (chunk [10, 20, 30, 40, 50] 2).dropLast, b.length = 2) ∧
    (∀ b ∈ chunk [10, 20, 30, 40, 50] 2, b ≠ [] ∧ b.length ≤ 2) :=
  chunk_lossless_partition [10, 20, 30, 40, 50] 2 (by decide)

/-- C10: with batch size 0 the chunker's first `islice` batch is already
empty, so it terminates at once and emits no batches at all — every input
note is silently dropped; no infinite loop, no error. -/
theorem chunk_zero_emits_nothing {α : Type} (l : List α) : chunk l 0 = [] := by
  cases l <;> rfl

theorem dictInsert_mem (d : List (String × String)) (k v : String)
    (p : String × String) (hp : p ∈ dictInsert d k v) : p ∈ d ∨ p = (k, v) := by
  unfold dictInsert at hp
  split at hp
  · rcases List.mem_map.mp hp with ⟨q, hq, he⟩
    by_cases hqk : q.1 == k
    · right; rw [if_pos hqk] at he; exact he.symm
    · left; rw [if_neg hqk] at he; exact he ▸ hq
  · rcases List.mem_append.mp hp with h | h
    · left; exact h
    · right; simpa using h

theorem pd_row_fold_invariant (pd_row : RawRecord) (P : String × String → Prop) :
    ∀ (m acc : List (String × String)),
      (∀ p ∈ acc, P p) →
      (∀ cf ∈ m, pd_notnull (loc pd_row cf.1) = true →
        pyStrip (pyStr (loc pd_row cf.1)) ≠ "" →
        P (cf.2, pyStrip (pyStr (loc pd_row cf.1)))) →
      ∀ p ∈ m.foldl (fun note cf =>
          let raw_value := loc pd_row cf.1
          if pd_notnull raw_value = true ∧ pyStrip (pyStr raw_value) ≠ "" then
            dictInsert note cf.2 (pyStrip (pyStr raw_value))
          else note) acc, P p := by
  intro m
  induction m with
  | nil => intro acc hacc _ p hp; exact hacc p hp
  | cons cf m ih =>
    intro acc hacc hm p hp
    rw [List.foldl_cons] at hp
    refine ih _ ?_ (fun cg hg => hm cg (List.mem_cons_of_mem cf hg)) p hp
    intro q hq
    by_cases hcond : pd_notnull (loc pd_row cf.1) = true ∧
        pyStrip (pyStr (loc pd_row cf.1)) ≠ ""
    · rw [if_pos hcond] at hq
      rcases dictInsert_mem _ _ _ q hq with h | h
      · exact hacc q h
      · rw [h]; exact hm cf (List.mem_cons_self cf m) hcond.1 hcond.2
    · rw [if_neg hcond] at hq
      exact hacc q hq

/-- C4 amended: the property holds of `pd_row_to_note_fields` (the
upload-csv-to-new-deck mapper): every entry of its output comes from a
configured (column, field) pair whose raw value is non-null with non-blank
stripped form, and the entry's value is that stripped form.  (The
classical-authors mapper violates the original claim, see the
counterexample.) -/
theorem pd_mapper_elides_null_and_blank (pd_row : RawRecord)
    (m : List (String × String)) (p : String × String)
    (hp : p ∈ pd_row_to_note_fields pd_row m) :
    ∃ c, (c, p.1) ∈ m ∧ pd_notnull (loc pd_row c) = true ∧
      pyStrip (pyStr (loc pd_row c)) ≠ "" ∧
      p.2 = pyStrip (pyStr (loc pd_row c)) := by
  unfold pd_row_to_note_fields at hp
  refine pd_row_fold_invariant pd_row
    (fun q => ∃ c, (c, q.1) ∈ m ∧ pd_notnull (loc pd_row c) = true ∧
      pyStrip (pyStr (loc pd_row c)) ≠ "" ∧ q.2 = pyStrip (pyStr (loc pd_row c)))
    m [] (by simp) ?_ p hp
  intro cf hcf h1 h2
  exact ⟨cf.1, by simpa using hcf, h1, h2, rfl⟩

/-- Witness for `pd_mapper_elides_null_and_blank` at a row holding " x "
(stripped to "x") in the configured column. -/
theorem pd_mapper_elides_null_and_blank_witness :
    ∃ c, (c, "F") ∈ [("a", "F")] ∧ pd_notnull (loc rowX c) = true ∧
      pyStrip (pyStr (loc rowX c)) ≠ "" ∧
      "x" = pyStrip (pyStr (loc rowX c)) :=
  pd_mapper_elides_null_and_blank rowX [("a", "F")] ("F", "x") (by decide)

/-- C4 counterexample: the classical-authors mapper keeps an entry whose
source value is blank (entry `("F", "")` from column `a` holding "  ")
and one whose source value is null (entry `("G", "nan")` from the missing
column `b`), so the claim is false for that flow's Field Mapper. -/
theorem classical_mapper_violates_elision :
    classical_row_to_fields [("a", some "  "), ("b", none)] [("a", "F"), ("b", "G")]
      = [("F", ""), ("G", "nan")] ∧
    pyStrip (pyStr (loc [("a", some "  "), ("b", none)] "a")) = "" ∧
    pd_notnull (loc [("a", some "  "), ("b", none)] "b") = false := by
  decide

/-- C9 counterexample: a record whose configured column `a` is present but
holds a null (NaN) cell maps to a fields dict without the index field `F`
(the mapper elides null cells); with `allow_duplicates = true` that record
is still filtered out before upload — the run ends cleanly with no
`canAddNotes`/`addNotes` call at all even though the transport accepts
everything, contradicting "is not filtered out and is still uploaded". -/
theorem index_filter_ignores_allow_duplicates :
    cfgDup.allow_duplicates = true ∧
    pd_row_to_note_fields [("a", none)] cfgDup.columns_to_note_fields = [] ∧
    csvFieldsToUpload [[("a", none)]] cfgDup.columns_to_note_fields
      cfgDup.index_field = [] ∧
    csvMain cfgDup [[("a", none)]] tHappy =
      ⟨[.version, .deckNames, .modelNames],
       [.info "ANKI api is up", .info "Deck exists", .info "Note Type exists"],
       .ok⟩ := by
  decide

theorem csvSetupChecks_error_result (config : ScriptConfig) (t : Transport)
    (r : RunResult) (h : csvSetupChecks config t = .error r) :
    (r.trace = [.version] ∨ r.trace = [.version, .deckNames] ∨
     r.trace = [.version, .deckNames, .modelNames]) ∧
    ∃ m, r.exit = .assertFail m := by
  unfold csvSetupChecks at h
  iterate 7 (all_goals try split at h)
  all_goals first
  | exact Except.noConfusion h
  | (injection h with h; subst h; exact ⟨by simp, _, rfl⟩)

theorem csvSetupChecks_ok_result (config : ScriptConfig) (t : Transport)
    (p : List NetCall × List LogEvent) (h : csvSetupChecks config t = .ok p) :
    p.1 = [.version, .deckNames, .modelNames] := by
  unfold csvSetupChecks at h
  iterate 7 (all_goals try split at h)
  all_goals first
  | exact Except.noConfusion h
  | (injection h with h; subst h; rfl)

theorem csvPreflight_calls (t : Transport) :
    ∀ (bs : List (List Note)) (c : NetCall), c ∈ (csvPreflight t bs).1 →
      ∃ b, b ∈ bs ∧ c = .canAddNotes b := by
  intro bs
  induction bs with
  | nil => intro c hc; simp [csvPreflight] at hc
  | cons b rest ih =>
    intro c hc
    simp only [csvPreflight] at hc
    by_cases h1 : (t.canAddNotes b).1 ≠ none
    · rw [if_pos h1] at hc
      rcases List.mem_singleton.mp hc with rfl
      exact ⟨b, List.mem_cons_self b rest, rfl⟩
    · rw [if_neg h1] at hc
      by_cases h2 : ((t.canAddNotes b).2.all fun r => r) = true
      · rw [if_pos h2] at hc
        rcases List.mem_cons.mp hc with rfl | hc
        · exact ⟨b, List.mem_cons_self b rest, rfl⟩
        · rcases ih c hc with ⟨b2, hb2, rfl⟩
          exact ⟨b2, List.mem_cons_of_mem b hb2, rfl⟩
      · rw [if_neg h2] at hc
        rcases List.mem_singleton.mp hc with rfl
        exact ⟨b, List.mem_cons_self b rest, rfl⟩

theorem csvPreflight_none_responses (t : Transport) :
    ∀ (bs : List (List Note)), (csvPreflight t bs).2.2 = none →
      ∀ b ∈ bs, (t.canAddNotes b).1 = none ∧
        (t.canAddNotes b).2.all (fun r => r) = true := by
  intro bs
  induction bs with
  | nil => intro _ b hb; simp at hb
  | cons b rest ih =>
    intro h b2 hb2
    simp only [csvPreflight] at h
    by_cases h1 : (t.canAddNotes b).1 ≠ none
    · rw [if_pos h1] at h
      simp at h
    · rw [if_neg h1] at h
      by_cases h2 : ((t.canAddNotes b).2.all fun r => r) = true
      · rw [if_pos h2] at h
        rcases List.mem_cons.mp hb2 with rfl | hb2
        · exact ⟨by simpa using h1, h2⟩
        · exact ih h b2 hb2
      · rw [if_neg h2] at h
        simp at h

theorem csvCommit_calls (t : Transport) :
    ∀ (s f : Nat) (bs : List (List Note)) (c : NetCall),
      c ∈ (csvCommit t s f bs).1 → ∃ b, b ∈ bs ∧ c = .addNotes b := by
  intro s f bs
  induction bs generalizing s f with
  | nil => intro c hc; simp [csvCommit] at hc
  | cons b rest ih =>
    intro c hc
    simp only [csvCommit] at hc
    by_cases h1 : ((t.addNotes b).2.map (fun r => decide (r ≠ none))).length -
        ((t.addNotes b).2.map (fun r => decide (r ≠ none))).count true > 0
    · rw [if_pos h1] at hc
      rcases List.mem_singleton.mp hc with rfl
      exact ⟨b, List.mem_cons_self b rest, rfl⟩
    · rw [if_neg h1] at hc
      rcases List.mem_cons.mp hc with rfl | hc
      · exact ⟨b, List.mem_cons_self b rest, rfl⟩
      · rcases ih _ _ c hc with ⟨b2, hb2, rfl⟩
        exact ⟨b2, List.mem_cons_of_mem b hb2, rfl⟩

theorem classicalSetup_error_result (config : ClassicalConfig) (t : Transport)
    (r : RunResult) (h : classicalSetup config t = .error r) :
    (r.trace = [.version] ∨ r.trace = [.version, .deckNames] ∨
     r.trace = [.version, .deckNames, .modelNames]) ∧
    ∃ m, r.exit = .assertFail m := by
  unfold classicalSetup at h
  iterate 9 (all_goals try split at h)
  all_goals first
  | exact Except.noConfusion h
  | (injection h with h; subst h; exact ⟨by simp, _, rfl⟩)

theorem classicalPreflight_calls (t : Transport) :
    ∀ (bs : List (List Note)) (c : NetCall), c ∈ (classicalPreflight t bs).1 →
      ∃ b, b ∈ bs ∧ c = .canAddNotes b := by
  intro bs
  induction bs with
  | nil => intro c hc; simp [classicalPreflight] at hc
  | cons b rest ih =>
    intro c hc
    simp only [classicalPreflight] at hc
    by_cases h1 : (t.canAddNotes b).1 ≠ none
    · rw [if_pos h1] at hc
      rcases List.mem_singleton.mp hc with rfl
      exact ⟨b, List.mem_cons_self b rest, rfl⟩
    · rw [if_neg h1] at hc
      by_cases h2 : ((t.canAddNotes b).2.all fun r => r) = true
      · rw [if_pos h2] at hc
        rcases List.mem_cons.mp hc with rfl | hc
        · exact ⟨b, List.mem_cons_self b rest, rfl⟩
        · rcases ih c hc with ⟨b2, hb2, rfl⟩
          exact ⟨b2, List.mem_cons_of_mem b hb2, rfl⟩
      · rw [if_neg h2] at hc
        rcases List.mem_singleton.mp hc with rfl
        exact ⟨b, List.mem_cons_self b rest, rfl⟩

theorem classicalPreflight_none_responses (t : Transport) :
    ∀ (bs : List (List Note)), (classicalPreflight t bs).2.2 = none →
      ∀ b ∈ bs, (t.canAddNotes b).1 = none ∧
        (t.canAddNotes b).2.all (fun r => r) = true := by
  intro bs
  induction bs with
  | nil => intro _ b hb; simp at hb
  | cons b rest ih =>
    intro h b2 hb2
    simp only [classicalPreflight] at h
    by_cases h1 : (t.canAddNotes b).1 ≠ none
    · rw [if_pos h1] at h
      simp at h
    · rw [if_neg h1] at h
      by_cases h2 : ((t.canAddNotes b).2.all fun r => r) = true
      · rw [if_pos h2] at h
        rcases List.mem_cons.mp hb2 with rfl | hb2
        · exact ⟨by simpa using h1, h2⟩
        · exact ih h b2 hb2
      · rw [if_neg h2] at h
        simp at h

theorem firstDup_none (vs : List String) :
    ∀ (seen : List String), firstDup vs seen = none →
      vs.Nodup ∧ ∀ u ∈ vs, seen.contains u = false := by
  induction vs with
  | nil => intro seen _; exact ⟨List.nodup_nil, by simp⟩
  | cons v vs ih =>
    intro seen h
    unfold firstDup at h
    by_cases hs : seen.contains v = true
    · rw [if_pos hs] at h; exact Option.noConfusion h
    · rw [if_neg hs] at h
      obtain ⟨hnd, hall⟩ := ih (v :: seen) h
      have hv : v ∉ vs := by
        intro hv
        have := hall v hv
        simp at this
      refine ⟨List.nodup_cons.mpr ⟨hv, hnd⟩, ?_⟩
      intro u hu
      rcases List.mem_cons.mp hu with rfl | hu
      · simpa using hs
      · have := hall u hu
        simp only [List.contains_cons, Bool.or_eq_false_iff] at this
        exact this.2

theorem firstDup_some (vs : List String) :
    ∀ (seen : List String) (v : String), firstDup vs seen = some v →
      v ∈ vs ∧ (seen.contains v = true ∨ 2 ≤ vs.count v) := by
  induction vs with
  | nil => intro seen v h; exact Option.noConfusion h
  | cons u vs ih =>
    intro seen v h
    unfold firstDup at h
    by_cases hs : seen.contains u = true
    · rw [if_pos hs] at h
      injection h with h
      subst h
      exact ⟨List.mem_cons_self u vs, Or.inl hs⟩
    · rw [if_neg hs] at h
      obtain ⟨hmem, hdisj⟩ := ih (u :: seen) v h
      refine ⟨List.mem_cons_of_mem u hmem, ?_⟩
      rcases hdisj with hcon | hcount
      · simp only [List.contains_cons, Bool.or_eq_true, beq_iff_eq] at hcon
        rcases hcon with rfl | hcon
        · right
          have h1 : 1 ≤ vs.count v := List.count_pos_iff.mpr hmem
          rw [List.count_cons_self]
          omega
        · exact Or.inl hcon
      · right
        calc 2 ≤ vs.count v := hcount
        _ ≤ (u :: vs).count v := List.count_le_count_cons v u vs

theorem csvSetupChecks_ok_of (config : ScriptConfig) (t : Transport)
    (hv : t.version = (none, 6))
    (hd1 : (t.deckNames).1 = none)
    (hd2 : (t.deckNames).2.contains config.deck_name = true)
    (hm1 : (t.modelNames).1 = none)
    (hm2 : (t.modelNames).2.contains config.note_type = true) :
    csvSetupChecks config t =
      .ok ([.version, .deckNames, .modelNames],
           [.info "ANKI api is up", .info "Deck exists", .info "Note Type exists"]) := by
  unfold csvSetupChecks
  rw [hv]
  have hd2m : config.deck_name ∈ (t.deckNames).2 := by simpa using hd2
  have hm2m : config.note_type ∈ (t.modelNames).2 := by simpa using hm2
  simp [hd1, hm1, hd2m, hm2m]

theorem classicalCommit_calls (t : Transport) (all_notes : List Note) :
    ∀ (bs : List (List Note)) (c : NetCall),
      c ∈ (classicalCommit t all_notes bs).1 → ∃ b, b ∈ bs ∧ c = .addNotes b := by
  intro bs
  induction bs with
  | nil => intro c hc; simp [classicalCommit] at hc
  | cons b rest ih =>
    intro c hc
    simp only [classicalCommit] at hc
    rcases List.mem_cons.mp hc with rfl | hc
    · exact ⟨b, List.mem_cons_self b rest, rfl⟩
    · rcases ih c hc with ⟨b2, hb2, rfl⟩
      exact ⟨b2, List.mem_cons_of_mem b hb2, rfl⟩

theorem csvMain_canAddNotes_batch (config : ScriptConfig) (rows : List RawRecord)
    (t : Transport) (b : List Note)
    (h : NetCall.canAddNotes b ∈ (csvMain config rows t).trace) :
    b ∈ chunk ((csvFieldsToUpload rows config.columns_to_note_fields
        config.index_field).map
        (mkNote config.deck_name config.note_type config.allow_duplicates)) 100 := by
  unfold csvMain at h
  cases hs : csvSetupChecks config t with
  | error r =>
    rw [hs] at h
    dsimp only at h
    rcases (csvSetupChecks_error_result config t r hs).1 with ht | ht | ht <;>
      (rw [ht] at h; simp at h)
  | ok p =>
    obtain ⟨tr0, lg0⟩ := p
    have htr : tr0 = [.version, .deckNames, .modelNames] :=
      csvSetupChecks_ok_result config t (tr0, lg0) hs
    rw [hs] at h
    dsimp only at h
    subst htr
    split at h
    · simp at h
    · split at h
      · rcases List.mem_append.mp h with h | h
        · simp at h
        · rcases csvPreflight_calls t _ _ h with ⟨b2, hb2, heq⟩
          injection heq with heq
          subst heq
          exact hb2
      · rcases List.mem_append.mp h with h | h
        · rcases List.mem_append.mp h with h | h
          · simp at h
          · rcases csvPreflight_calls t _ _ h with ⟨b2, hb2, heq⟩
            injection heq with heq
            subst heq
            exact hb2
        · rcases csvCommit_calls t _ _ _ _ h with ⟨b2, hb2, heq⟩
          exact NetCall.noConfusion heq

theorem csvMain_addNotes_batch (config : ScriptConfig) (rows : List RawRecord)
    (t : Transport) (b : List Note)
    (h : NetCall.addNotes b ∈ (csvMain config rows t).trace) :
    b ∈ chunk ((csvFieldsToUpload rows config.columns_to_note_fields
        config.index_field).map
        (mkNote config.deck_name config.note_type config.allow_duplicates)) 100 ∧
    (csvPreflight t (chunk ((csvFieldsToUpload rows config.columns_to_note_fields
        config.index_field).map
        (mkNote config.deck_name config.note_type config.allow_duplicates))
        100)).2.2 = none := by
  unfold csvMain at h
  cases hs : csvSetupChecks config t with
  | error r =>
    rw [hs] at h
    dsimp only at h
    rcases (csvSetupChecks_error_result config t r hs).1 with ht | ht | ht <;>
      (rw [ht] at h; simp at h)
  | ok p =>
    obtain ⟨tr0, lg0⟩ := p
    have htr : tr0 = [.version, .deckNames, .modelNames] :=
      csvSetupChecks_ok_result config t (tr0, lg0) hs
    rw [hs] at h
    dsimp only at h
    subst htr
    split at h
    · simp at h
    · split at h
      · rcases List.mem_append.mp h with h | h
        · simp at h
        · rcases csvPreflight_calls t _ _ h with ⟨b2, hb2, heq⟩
          exact NetCall.noConfusion heq
      · rename_i hpre
        rcases List.mem_append.mp h with h | h
        · rcases List.mem_append.mp h with h | h
          · simp at h
          · rcases csvPreflight_calls t _ _ h with ⟨b2, hb2, heq⟩
            exact NetCall.noConfusion heq
        · rcases csvCommit_calls t _ _ _ _ h with ⟨b2, hb2, heq⟩
          injection heq with heq
          subst heq
          exact ⟨hb2, hpre⟩

theorem classicalMain_canAddNotes_batch (config : ClassicalConfig)
    (rows : List RawRecord) (t : Transport) (b : List Note)
    (h : NetCall.canAddNotes b ∈ (classicalMain config rows t).trace) :
    ∃ dn nt m, classicalSetup config t = .ok (dn, nt, m) ∧
      b ∈ chunk ((rows.map (fun r => classical_row_to_fields r m)).map
        (mkNote dn nt false)) 100 := by
  unfold classicalMain at h
  cases hs : classicalSetup config t with
  | error r =>
    rw [hs] at h
    dsimp only at h
    rcases (classicalSetup_error_result config t r hs).1 with ht | ht | ht <;>
      (rw [ht] at h; simp at h)
  | ok p =>
    obtain ⟨dn, nt, m⟩ := p
    rw [hs] at h
    dsimp only at h
    refine ⟨dn, nt, m, rfl, ?_⟩
    split at h
    · rcases List.mem_append.mp h with h | h
      · simp at h
      · rcases classicalPreflight_calls t _ _ h with ⟨b2, hb2, heq⟩
        injection heq with heq
        subst heq
        exact hb2
    · rcases List.mem_append.mp h with h | h
      · rcases List.mem_append.mp h with h | h
        · simp at h
        · rcases classicalPreflight_calls t _ _ h with ⟨b2, hb2, heq⟩
          injection heq with heq
          subst heq
          exact hb2
      · rcases classicalCommit_calls t _ _ _ h with ⟨b2, hb2, heq⟩
        exact NetCall.noConfusion heq

theorem classicalMain_addNotes_batch (config : ClassicalConfig)
    (rows : List RawRecord) (t : Transport) (b : List Note)
    (h : NetCall.addNotes b ∈ (classicalMain config rows t).trace) :
    ∃ dn nt m, classicalSetup config t = .ok (dn, nt, m) ∧
      b ∈ chunk ((rows.map (fun r => classical_row_to_fields r m)).map
        (mkNote dn nt false)) 100 ∧
      (classicalPreflight t (chunk ((rows.map
        (fun r => classical_row_to_fields r m)).map
        (mkNote dn nt false)) 100)).2.2 = none := by
  unfold classicalMain at h
  cases hs : classicalSetup config t with
  | error r =>
    rw [hs] at h
    dsimp only at h
    rcases (classicalSetup_error_result config t r hs).1 with ht | ht | ht <;>
      (rw [ht] at h; simp at h)
  | ok p =>
    obtain ⟨dn, nt, m⟩ := p
    rw [hs] at h
    dsimp only at h
    refine ⟨dn, nt, m, rfl, ?_⟩
    split at h
    · rcases List.mem_append.mp h with h | h
      · simp at h
      · rcases classicalPreflight_calls t _ _ h with ⟨b2, hb2, heq⟩
        exact NetCall.noConfusion heq
    · rename_i hpre
      rcases List.mem_append.mp h with h | h
      · rcases List.mem_append.mp h with h | h
        · simp at h
        · rcases classicalPreflight_calls t _ _ h with ⟨b2, hb2, heq⟩
          exact NetCall.noConfusion heq
      · rcases classicalCommit_calls t _ _ _ h with ⟨b2, hb2, heq⟩
        injection heq with heq
        subst heq
        exact ⟨hb2, hpre⟩

/-- C3: with `allow_duplicates = false` (the index field is always
configured in this flow) and two surviving records sharing an index-field
value, the run — once the setup checks pass — stops at the duplicate scan
with `sys.exit(1)`, logs the offending (twice-occurring) value, and its
trace is exactly the three setup calls: no `addNotes` (nor even
`canAddNotes`) is ever issued. -/
theorem duplicate_index_aborts_before_upload (config : ScriptConfig)
    (rows : List RawRecord) (t : Transport)
    (hAllow : config.allow_duplicates = false)
    (hdup : ¬ ((csvFieldsToUpload rows config.columns_to_note_fields
        config.index_field).map (fun f => dictGet f config.index_field)).Nodup)
    (hv : t.version = (none, 6))
    (hd1 : (t.deckNames).1 = none)
    (hd2 : (t.deckNames).2.contains config.deck_name = true)
    (hm1 : (t.modelNames).1 = none)
    (hm2 : (t.modelNames).2.contains config.note_type = true) :
    ∃ v, csvMain config rows t =
        ⟨[.version, .deckNames, .modelNames],
         [.info "ANKI api is up", .info "Deck exists", .info "Note Type exists",
          .duplicateIndex v], .exit1⟩ ∧
      2 ≤ ((csvFieldsToUpload rows config.columns_to_note_fields
        config.index_field).map (fun f => dictGet f config.index_field)).count v := by
  cases hfd : firstDup ((csvFieldsToUpload rows config.columns_to_note_fields
      config.index_field).map (fun f => dictGet f config.index_field)) [] with
  | none => exact absurd (firstDup_none _ _ hfd).1 hdup
  | some v =>
    refine ⟨v, ?_, ?_⟩
    · unfold csvMain
      rw [csvSetupChecks_ok_of config t hv hd1 hd2 hm1 hm2]
      rw [hAllow]
      simp only [Bool.false_eq_true, if_false, hfd]
      simp
    · rcases (firstDup_some _ _ v hfd).2 with hcon | hcount
      · simp at hcon
      · exact hcount

theorem csvSetupChecks_version_fail (config : ScriptConfig) (t : Transport)
    (h : (t.version).1 ≠ none ∨ (t.version).2 ≠ 6) :
    ∃ m, csvSetupChecks config t = .error ⟨[.version], [], .assertFail m⟩ := by
  unfold csvSetupChecks
  by_cases h1 : (t.version).1 ≠ none
  · rw [if_pos h1]; exact ⟨_, rfl⟩
  · have h2 : (t.version).2 ≠ 6 := by tauto
    rw [if_neg h1, if_pos h2]; exact ⟨_, rfl⟩

theorem classicalSetup_version_fail (config : ClassicalConfig) (t : Transport)
    (h : (t.version).1 ≠ none ∨ (t.version).2 ≠ 6) :
    ∃ m, classicalSetup config t = .error ⟨[.version], [], .assertFail m⟩ := by
  unfold classicalSetup
  by_cases h1 : (t.version).1 ≠ none
  · rw [if_pos h1]; exact ⟨_, rfl⟩
  · have h2 : (t.version).2 ≠ 6 := by tauto
    rw [if_neg h1, if_pos h2]; exact ⟨_, rfl⟩

/-- C7: a liveness response with a non-null error or a result other than 6
fails the asserts right after the version call in both flows: the whole
network trace is the single `version` call — no deckNames, modelNames,
canAddNotes or addNotes is ever issued — and the run aborts. -/
theorem version_check_failure_stops_calls (config : ScriptConfig)
    (ccfg : ClassicalConfig) (rows rows2 : List RawRecord) (t : Transport)
    (h : (t.version).1 ≠ none ∨ (t.version).2 ≠ 6) :
    (csvMain config rows t).trace = [.version] ∧
    (∃ m, (csvMain config rows t).exit = .assertFail m) ∧
    (classicalMain ccfg rows2 t).trace = [.version] ∧
    (∃ m, (classicalMain ccfg rows2 t).exit = .assertFail m) := by
  obtain ⟨m1, hm1⟩ := csvSetupChecks_version_fail config t h
  obtain ⟨m2, hm2⟩ := classicalSetup_version_fail ccfg t h
  unfold csvMain classicalMain
  rw [hm1, hm2]
  exact ⟨rfl, ⟨m1, rfl⟩, rfl, ⟨m2, rfl⟩⟩

/-- Witness for `version_check_failure_stops_calls` at a transport whose
version result is 5. -/
theorem version_check_failure_stops_calls_witness :
    (csvMain cfgA [rowX] tWrongVersion).trace = [.version] ∧
    (∃ m, (csvMain cfgA [rowX] tWrongVersion).exit = .assertFail m) ∧
    (classicalMain ccfgA [rowX] tWrongVersion).trace = [.version] ∧
    (∃ m, (classicalMain ccfgA [rowX] tWrongVersion).exit = .assertFail m) :=
  version_check_failure_stops_calls cfgA ccfgA [rowX] [rowX] tWrongVersion
    (Or.inr (by decide))

/-- C8 counterexample: the classical-authors flow posts the liveness check
before loading its configuration, so a config missing the required
deck_name key fails its assert only after a network call was already
made: the trace is not empty but holds the version call. -/
theorem classical_missing_key_after_network_call :
    classicalMain ⟨none, some "M", some [("a", "F")]⟩ [] tHappy =
      ⟨[.version], [.info "ANKI api is up"],
       .assertFail "key=deck_name is not in dictionary"⟩ := by
  decide

theorem parse_config_missing_key (d : ConfigDict)
    (hd : d.csv_path = none ∨ d.deck_name = none ∨ d.note_type = none ∨
          d.columns_to_note_fields = none) :
    ∃ k, parse_config d = .error k := by
  obtain ⟨p, dn, nt, m, ad, idx⟩ := d
  unfold parse_config
  dsimp only at hd ⊢
  rcases hd with rfl | rfl | rfl | rfl
  · exact ⟨_, rfl⟩
  · cases p <;> exact ⟨_, rfl⟩
  · cases p <;> cases dn <;> exact ⟨_, rfl⟩
  · cases p <;> cases dn <;> cases nt <;> exact ⟨_, rfl⟩

/-- C8 amended: a missing required key is fatal in both variants, but only
the local-file (csv) variant reports it before any network call —
`parse_config` runs during argument parsing, so its trace is empty.  The
remote (classical-authors) variant issues the liveness call first and only
then loads the config: a missing deck_name or note_type key aborts with
the version call already in the trace (trace exactly [version]), and the
required csv_columns_to_note_fields mapping key is asserted only at line
77, after the version, deckNames and modelNames calls have all been
issued. -/
theorem missing_config_key_fatal :
    (∀ (d : ConfigDict) (rows : List RawRecord) (t : Transport),
      (d.csv_path = none ∨ d.deck_name = none ∨ d.note_type = none ∨
       d.columns_to_note_fields = none) →
      (csvRun d rows t).trace = [] ∧
        ∃ m, (csvRun d rows t).exit = .assertFail m) ∧
    (∀ (ccfg : ClassicalConfig) (rows : List RawRecord) (t : Transport),
      t.version = (none, 6) →
      (ccfg.deck_name = none ∨ ccfg.note_type = none) →
      (classicalMain ccfg rows t).trace = [.version] ∧
        ∃ m, (classicalMain ccfg rows t).exit = .assertFail m) ∧
    (∀ (dn nt : String) (rows : List RawRecord) (t : Transport),
      t.version = (none, 6) →
      (t.deckNames).1 = none → (t.deckNames).2.contains dn = true →
      (t.modelNames).1 = none → (t.modelNames).2.contains nt = true →
      classicalMain ⟨some dn, some nt, none⟩ rows t =
        ⟨[.version, .deckNames, .modelNames],
         [.info "ANKI api is up", .info "Deck exists", .info "Note Type exists"],
         .assertFail "key=csv_columns_to_note_fields is not in dictionary"⟩) := by
  refine ⟨?_, ?_, ?_⟩
  · intro d rows t hd
    obtain ⟨k, hk⟩ := parse_config_missing_key d hd
    unfold csvRun
    rw [hk]
    exact ⟨rfl, k, rfl⟩
  · intro ccfg rows t hv hc
    have hsetup : ∃ m, classicalSetup ccfg t =
        .error ⟨[.version], [.info "ANKI api is up"], .assertFail m⟩ := by
      unfold classicalSetup
      rw [hv]
      simp only [ne_eq, not_true_eq_false, if_false, not_false_eq_true]
      rcases hc with h | h
      · rw [h]
        exact ⟨_, rfl⟩
      · rw [h]
        cases ccfg.deck_name <;> exact ⟨_, rfl⟩
    obtain ⟨m, hm⟩ := hsetup
    unfold classicalMain
    rw [hm]
    exact ⟨rfl, m, rfl⟩
  · intro dn nt rows t hv hd1 hd2 hm1 hm2
    have hset : classicalSetup ⟨some dn, some nt, none⟩ t =
        .error ⟨[.version, .deckNames, .modelNames],
                [.info "ANKI api is up", .info "Deck exists",
                 .info "Note Type exists"],
                .assertFail "key=csv_columns_to_note_fields is not in dictionary"⟩ := by
      unfold classicalSetup
      rw [hv]
      have hd2m : dn ∈ (t.deckNames).2 := by simpa using hd2
      have hm2m : nt ∈ (t.modelNames).2 := by simpa using hm2
      simp [hd1, hm1, hd2m, hm2m]
    unfold classicalMain
    rw [hset]

/-- Witness for `missing_config_key_fatal`: a csv config missing csv_path,
a classical config missing deck_name, and a classical config with deck and
note type present but the columns-to-fields mapping key missing. -/
theorem missing_config_key_fatal_witness :
    ((csvRun ⟨none, some "D", some "M", some [("a", "F")], some false, some "F"⟩
        [rowX] tHappy).trace = [] ∧
      ∃ m, (csvRun ⟨none, some "D", some "M", some [("a", "F")], some false,
        some "F"⟩ [rowX] tHappy).exit = .assertFail m) ∧
    ((classicalMain ⟨none, some "M", some [("a", "F")]⟩ [rowX] tHappy).trace
        = [.version] ∧
      ∃ m, (classicalMain ⟨none, some "M", some [("a", "F")]⟩ [rowX]
        tHappy).exit = .assertFail m) ∧
    (classicalMain ⟨some "D", some "M", none⟩ [rowX] tHappy =
      ⟨[.version, .deckNames, .modelNames],
       [.info "ANKI api is up", .info "Deck exists", .info "Note Type exists"],
       .assertFail "key=csv_columns_to_note_fields is not in dictionary"⟩) :=
  ⟨missing_config_key_fatal.1 ⟨none, some "D", some "M", some [("a", "F")],
      some false, some "F"⟩ [rowX] tHappy (Or.inl rfl),
   missing_config_key_fatal.2.1 ⟨none, some "M", some [("a", "F")]⟩ [rowX]
      tHappy rfl (Or.inl rfl),
   missing_config_key_fatal.2.2 "D" "M" [rowX] tHappy rfl rfl (by decide)
      rfl (by decide)⟩

/-- C2 counterexample: with a transport answering `canAddNotes` with a
false entry, the csv flow — the only one that logs the rejection — does
not continue into the commit phase: it prints the failing fields and the
summary and exits via sys.exit(1) with no addNotes call in its trace; the
classical flow aborts via a failed assert.  Neither flow is lenient. -/
theorem no_lenient_preflight_flow :
    csvMain cfgA [rowX] tReject =
      ⟨[.version, .deckNames, .modelNames, .canAddNotes [noteX]],
       [.info "ANKI api is up", .info "Deck exists", .info "Note Type exists",
        .failedNoteFields [("F", "x")], .preflightSummary 0 1], .exit1⟩ ∧
    classicalMain ccfgA [rowX] tReject =
      ⟨[.version, .deckNames, .modelNames, .canAddNotes [noteX]],
       [.info "ANKI api is up", .info "Deck exists", .info "Note Type exists"],
       .assertFail "notes are valid"⟩ := by
  decide

/-- C2 amended: both upload flows abort before committing anything when a
pre-flight response is bad: an `addNotes` call appears in a run's trace
only if every `canAddNotes` response observed in that run had a null
error and an all-true result.  There is no lenient flow that continues
into the commit phase past a false entry. -/
theorem preflight_rejection_aborts_both_flows :
    (∀ (config : ScriptConfig) (rows : List RawRecord) (t : Transport)
       (b b2 : List Note),
      NetCall.addNotes b ∈ (csvMain config rows t).trace →
      NetCall.canAddNotes b2 ∈ (csvMain config rows t).trace →
      (t.canAddNotes b2).1 = none ∧
        ((t.canAddNotes b2).2.all fun r => r) = true) ∧
    (∀ (config : ClassicalConfig) (rows : List RawRecord) (t : Transport)
       (b b2 : List Note),
      NetCall.addNotes b ∈ (classicalMain config rows t).trace →
      NetCall.canAddNotes b2 ∈ (classicalMain config rows t).trace →
      (t.canAddNotes b2).1 = none ∧
        ((t.canAddNotes b2).2.all fun r => r) = true) := by
  constructor
  · intro config rows t b b2 hadd hcan
    obtain ⟨_, hpre⟩ := csvMain_addNotes_batch config rows t b hadd
    exact csvPreflight_none_responses t _ hpre b2
      (csvMain_canAddNotes_batch config rows t b2 hcan)
  · intro config rows t b b2 hadd hcan
    obtain ⟨dn, nt, m, hs, _, hpre⟩ := classicalMain_addNotes_batch config rows t b hadd
    obtain ⟨dn2, nt2, m2, hs2, hmem2⟩ :=
      classicalMain_canAddNotes_batch config rows t b2 hcan
    rw [hs] at hs2
    injection hs2 with hs2
    simp only [Prod.mk.injEq] at hs2
    obtain ⟨rfl, rfl, rfl⟩ := hs2
    exact classicalPreflight_none_responses t _ hpre b2 hmem2

/-- Witness for `preflight_rejection_aborts_both_flows`: a happy-path run
of each flow in which the single batch is both pre-flighted and
committed. -/
theorem preflight_rejection_aborts_both_flows_witness :
    ((tHappy.canAddNotes [noteX]).1 = none ∧
      ((tHappy.canAddNotes [noteX]).2.all fun r => r) = true) ∧
    ((tHappy.canAddNotes [noteX]).1 = none ∧
      ((tHappy.canAddNotes [noteX]).2.all fun r => r) = true) :=
  ⟨preflight_rejection_aborts_both_flows.1 cfgA [rowX] tHappy [noteX] [noteX]
     (by decide) (by decide),
   preflight_rejection_aborts_both_flows.2 ccfgA [rowX] tHappy [noteX] [noteX]
     (by decide) (by decide)⟩

/-- C9 amended: the exclusion of records lacking the index field is
unconditional in the csv flow — `csvFieldsToUpload` filters on index-field
presence without consulting `allow_duplicates` (which it does not even
take) — so every surviving field dict, and every note of every committed
batch, contains the index field whatever `allow_duplicates` is.  Only the
duplicate-value abort is guarded by `allow_duplicates = false`. -/
theorem index_filter_unconditional :
    (∀ (rows : List RawRecord) (m : List (String × String)) (idx : String),
      ((csvFieldsToUpload rows m idx).all fun f => dictContains f idx) = true) ∧
    ∀ (config : ScriptConfig) (rows : List RawRecord) (t : Transport)
      (b : List Note) (nt : Note),
      NetCall.addNotes b ∈ (csvMain config rows t).trace → nt ∈ b →
      dictContains nt.fields config.index_field = true := by
  constructor
  · intro rows m idx
    simp only [csvFieldsToUpload, List.all_eq_true]
    intro f hf
    exact (List.mem_filter.mp hf).2
  · intro config rows t b nt hb hnt
    obtain ⟨hmem, _⟩ := csvMain_addNotes_batch config rows t b hb
    have h100 : (100 : Nat) = 99 + 1 := rfl
    rw [h100] at hmem
    have hflat : nt ∈ (chunk ((csvFieldsToUpload rows config.columns_to_note_fields
        config.index_field).map (mkNote config.deck_name config.note_type
        config.allow_duplicates)) (99 + 1)).flatten :=
      List.mem_flatten.mpr ⟨b, hmem, hnt⟩
    rw [chunk_join] at hflat
    rcases List.mem_map.mp hflat with ⟨f, hf, rfl⟩
    unfold csvFieldsToUpload at hf
    exact (List.mem_filter.mp hf).2

/-- Witness for `index_filter_unconditional`: the committed note of a
happy-path run contains the index field. -/
theorem index_filter_unconditional_witness :
    dictContains noteX.fields cfgA.index_field = true :=
  index_filter_unconditional.2 cfgA [rowX] tHappy [noteX] noteX
    (by decide) (by decide)

/-- C5 (code bug): for a 3-note batch with addNotes result
["id1", null, "id3"], the csv flow computes 2 successes and 1 failure but
its report line interpolates the unbound name `num_failures`, so the run
dies with NameError before recording any count or failing payload: the
log ends at the pre-flight confirmation, with no commitFailure, progress
or per-note event.  The classical flow does print the failure count (1 of
3) and the failing note's payload for this single-batch run, but records
no success count. -/
theorem commit_failure_report_crashes :
    csvMain cfgA [rowS1, rowS2, rowS3] tMixedIds =
      ⟨[.version, .deckNames, .modelNames,
        .canAddNotes [noteS1, noteS2, noteS3], .addNotes [noteS1, noteS2, noteS3]],
       [.info "ANKI api is up", .info "Deck exists", .info "Note Type exists",
        .confirmed 3], .nameError "num_failures"⟩ ∧
    classicalMain ccfgA [rowS1, rowS2, rowS3] tMixedIds =
      ⟨[.version, .deckNames, .modelNames,
        .canAddNotes [noteS1, noteS2, noteS3], .addNotes [noteS1, noteS2, noteS3]],
       [.info "ANKI api is up", .info "Deck exists", .info "Note Type exists",
        .confirmed 3, .commitFailure 1 3, .failedNote noteS2], .ok⟩ := by
  decide

set_option maxRecDepth 100000 in
/-- C6 (code bug): in the csv flow a per-note failure at commit is fatal,
not silent: with 101 identical notes (two batches) and a transport
failing every note, the first failing batch raises the NameError at the
report line — only one of the two addNotes calls is ever issued and the
run dies with a non-zero status instead of completing.  The classical
flow, by contrast, really is best-effort: both its addNotes calls are
issued and it falls off the end with exit status 0. -/
theorem per_note_commit_failure_is_fatal :
    csvMain cfgDup (List.replicate 101 rowX) tAllFail =
      ⟨[.version, .deckNames, .modelNames,
        .canAddNotes (List.replicate 100 noteXd), .canAddNotes [noteXd],
        .addNotes (List.replicate 100 noteXd)],
       [.info "ANKI api is up", .info "Deck exists", .info "Note Type exists",
        .confirmed 100, .confirmed 1], .nameError "num_failures"⟩ ∧
    classicalMain ccfgA (List.replicate 101 rowX) tAllFail =
      ⟨[.version, .deckNames, .modelNames,
        .canAddNotes (List.replicate 100 noteX), .canAddNotes [noteX],
        .addNotes (List.replicate 100 noteX), .addNotes [noteX]],
       ([.info "ANKI api is up", .info "Deck exists", .info "Note Type exists",
         .confirmed 100, .confirmed 1, .commitFailure 100 100] ++
        List.replicate 100 (.failedNote noteX) ++
        [.commitFailure 1 1, .failedNote noteX]), .ok⟩ := by
  decide

/-- Witness for `duplicate_index_aborts_before_upload`: two rows both
mapping index field F to "x". -/
theorem duplicate_index_aborts_before_upload_witness :
    ∃ v, csvMain cfgA [rowX, rowX] tHappy =
        ⟨[.version, .deckNames, .modelNames],
         [.info "ANKI api is up", .info "Deck exists", .info "Note Type exists",
          .duplicateIndex v], .exit1⟩ ∧
      2 ≤ ((csvFieldsToUpload [rowX, rowX] cfgA.columns_to_note_fields
        cfgA.index_field).map (fun f => dictGet f cfgA.index_field)).count v :=
  duplicate_index_aborts_before_upload cfgA [rowX, rowX] tHappy rfl (by decide)
    rfl rfl (by decide) rfl (by decide)

end AnkiTools
